import Mathlib

set_option linter.unusedSectionVars false

/-!
Verification development for the `phosphor-properties` attached-property
descriptor library (src/src/index.ts).  The source file holds two variants of
the implementation:

* variant 1 (lines 1-380): a `Property<T, U>` with a per-descriptor
  `notify` signal option and a `name` option; `_maybeNotify` skips the
  comparison entirely when neither `changed` nor `notify` is configured.
* variant 2 (lines 381-721): a `Property<T, U>` with a static
  `Property.changedSignal`; `_maybeNotify` always invokes the comparison
  and always emits on the static signal when the values differ.

Shallow embedding choices:

* owners are identified by `Nat` (object identity is all the code uses);
* the JavaScript value space for a property of value type `U` is
  `Option U`, with `none` playing the role of `undefined` (a hash entry
  can be present and hold `undefined`; `key in hash` distinguishes the
  two, so a hash is `Nat → Option (Option U)`);
* the module-level `ownerData` WeakMap is an explicit `Store U` value,
  threaded through the operations;
* user callbacks (`create`, `coerce`, `compare`) are Lean functions;
  the `changed` callback and the notification channel are modelled by
  configuration flags, and every user-visible side effect (callback
  invocation, signal emission, table write) is recorded as an `Event`
  in an execution trace returned alongside the new store, in the order
  the TypeScript code performs it;
* the default `===` comparison is modelled by decidable equality on
  `Option U`.
-/

namespace Phosphor

/-- A user-observable event produced while running a property operation,
recorded in execution order.  `write` records an assignment
`hash[pid] = value` into an owner's value table; `notifyEmit` is variant 1's
per-descriptor `notify` signal emission (payload `{name, oldValue, newValue}`);
`changedSignalEmit` is variant 2's static `Property.changedSignal` emission
(payload `{property, oldValue, newValue}`, the descriptor identified here by
its pid). -/
inductive Event (U : Type) where
  | createCall (owner : Nat)
  | coerceCall (owner : Nat) (value : Option U)
  | compareCall (oldValue newValue : Option U)
  | changedCall (owner : Nat) (oldValue newValue : Option U)
  | notifyEmit (owner : Nat) (name : String) (oldValue newValue : Option U)
  | changedSignalEmit (owner : Nat) (pid : Nat) (oldValue newValue : Option U)
  | write (owner : Nat) (pid : Nat) (value : Option U)
  deriving DecidableEq, Repr

/-- A per-owner value table: property id → entry.  An entry `some w` means the
key is present (the slot is "set") and holds the JavaScript value `w`
(`none` = `undefined`). -/
def Hash (U : Type) : Type := Nat → Option (Option U)

/-- The module-level `ownerData` WeakMap: owner → its value table, if any. -/
def Store (U : Type) : Type := Nat → Option (Hash U)

/-- `Object.create(null)`: the fresh empty hash. -/
def emptyHash {U : Type} : Hash U := fun _ => none

/-- A store with no owner tables at all. -/
def emptyStore {U : Type} : Store U := fun _ => none

/-- `hash[pid] = w`. -/
def updHash {U : Type} (h : Hash U) (pid : Nat) (w : Option U) : Hash U :=
  fun k => if k = pid then some w else h k

/-- `ownerData.set(owner, h)`. -/
def updTable {U : Type} (s : Store U) (m : Nat) (h : Hash U) : Store U :=
  fun o => if o = m then some h else s o

/-- `lookupHash(owner)`: return the existing table and the unchanged store, or
create an empty table, associate it, and return both. -/
def lookupHash {U : Type} (s : Store U) (m : Nat) : Hash U × Store U :=
  match s m with
  | some h => (h, s)
  | none => (emptyHash, updTable s m emptyHash)

/-- `clearPropertyData(owner)`: `ownerData.delete(owner)`.  Identical in both
variants.  It runs no callback and emits nothing, so its trace is empty. -/
def clearPropertyData {U : Type} (m : Nat) (s : Store U) :
    Store U × List (Event U) :=
  (fun o => if o = m then none else s o, [])

/-- Result of a `get` call: returned value, resulting store, event trace. -/
structure GetRes (U : Type) where
  val : Option U
  st : Store U
  tr : List (Event U)

/-- Result of a `set`/`coerce` call: resulting store and event trace. -/
structure OpRes (U : Type) where
  st : Store U
  tr : List (Event U)

/-- `e` is a table-write event. -/
def isWrite {U : Type} : Event U → Bool
  | .write _ _ _ => true
  | _ => false

/-- `e` is an invocation of the equality predicate. -/
def isCompare {U : Type} : Event U → Bool
  | .compareCall _ _ => true
  | _ => false

/-- `e` is an invocation of the `changed` side-effect callback. -/
def isChangedEv {U : Type} : Event U → Bool
  | .changedCall _ _ _ => true
  | _ => false

/-- `e` is a change-notification emission (either variant's channel). -/
def isNotifyEv {U : Type} : Event U → Bool
  | .notifyEmit _ _ _ _ => true
  | .changedSignalEmit _ _ _ _ => true
  | _ => false

/-- `e` is an invocation of the `coerce` callback. -/
def isCoerceEv {U : Type} : Event U → Bool
  | .coerceCall _ _ => true
  | _ => false

/-- `e` is a `changed` callback run or a notification emission: the
observable side effects gated behind the comparison. -/
def isEffect {U : Type} (e : Event U) : Bool :=
  isChangedEv e || isNotifyEv e

/-- `e` belongs to the notification phase of `_maybeNotify`: the comparison,
the `changed` callback, or a notification emission. -/
def isNotifyPhase {U : Type} (e : Event U) : Bool :=
  isCompare e || isEffect e

namespace V1

/-- Variant 1 descriptor (source lines 188-333): the immutable configuration
captured by the constructor from `IPropertyOptions`, plus the minted `_pid`.
`changed` and `notify` record whether those options were supplied; their
invocations are traced as events. -/
structure Property (U : Type) where
  name : String
  value : Option U
  create : Option (Nat → Option U)
  coerce : Option (Nat → Option U → Option U)
  compare : Option (Option U → Option U → Bool)
  changed : Bool
  notify : Bool
  pid : Nat

variable {U : Type} [DecidableEq U]

/-- `_createValue(owner)`: factory if configured, else the `value` option. -/
def createValue (p : Property U) (m : Nat) : Option U :=
  match p.create with
  | some c => c m
  | none => p.value

/-- Events produced by `_createValue`: the factory call, when configured. -/
def createTrace (p : Property U) (m : Nat) : List (Event U) :=
  match p.create with
  | some _ => [.createCall m]
  | none => []

/-- `_coerceValue(owner, value)`: coercion if configured, else the value. -/
def coerceValue (p : Property U) (m : Nat) (v : Option U) : Option U :=
  match p.coerce with
  | some c => c m v
  | none => v

/-- Events produced by `_coerceValue`: the coerce call, when configured. -/
def coerceTrace (p : Property U) (m : Nat) (v : Option U) : List (Event U) :=
  match p.coerce with
  | some _ => [.coerceCall m v]
  | none => []

/-- `_compareValue(oldValue, newValue)`: the `compare` option, else `===`. -/
def compareValue (p : Property U) (a b : Option U) : Bool :=
  match p.compare with
  | some c => c a b
  | none => decide (a = b)

/-- `_maybeNotify(owner, oldValue, newValue)` (source lines 308-323): return
immediately when neither `changed` nor `notify` is configured; otherwise
invoke the comparison once; when it reports a difference, run `changed`
(when configured) and then emit on `notify` (when configured). -/
def maybeNotify (p : Property U) (m : Nat) (a b : Option U) : List (Event U) :=
  if !p.changed && !p.notify then []
  else
    .compareCall a b ::
      (if compareValue p a b then []
       else
         (if p.changed then [.changedCall m a b] else []) ++
           (if p.notify then [.notifyEmit m p.name a b] else []))

/-- `get(owner)` (source lines 226-235). -/
def get (p : Property U) (m : Nat) (s : Store U) : GetRes U :=
  match (lookupHash s m).1 p.pid with
  | some w => ⟨w, (lookupHash s m).2, []⟩
  | none =>
    ⟨createValue p m,
      updTable (lookupHash s m).2 m
        (updHash (lookupHash s m).1 p.pid (createValue p m)),
      createTrace p m ++ [.write m p.pid (createValue p m)]⟩

/-- `set(owner, value)` (source lines 248-258).  Note the unset branch
`oldValue = hash[this._pid] = this._createValue(owner)` writes the computed
default into the table before the coerced new value is stored. -/
def set (p : Property U) (m : Nat) (v : Option U) (s : Store U) : OpRes U :=
  match (lookupHash s m).1 p.pid with
  | some w =>
    ⟨updTable (lookupHash s m).2 m
        (updHash (lookupHash s m).1 p.pid (coerceValue p m v)),
      coerceTrace p m v ++ [.write m p.pid (coerceValue p m v)] ++
        maybeNotify p m w (coerceValue p m v)⟩
  | none =>
    ⟨updTable (lookupHash s m).2 m
        (updHash (updHash (lookupHash s m).1 p.pid (createValue p m)) p.pid
          (coerceValue p m v)),
      createTrace p m ++ [.write m p.pid (createValue p m)] ++
        coerceTrace p m v ++ [.write m p.pid (coerceValue p m v)] ++
        maybeNotify p m (createValue p m) (coerceValue p m v)⟩

/-- `coerce(owner)` (source lines 269-279). -/
def coerce (p : Property U) (m : Nat) (s : Store U) : OpRes U :=
  match (lookupHash s m).1 p.pid with
  | some w =>
    ⟨updTable (lookupHash s m).2 m
        (updHash (lookupHash s m).1 p.pid (coerceValue p m w)),
      coerceTrace p m w ++ [.write m p.pid (coerceValue p m w)] ++
        maybeNotify p m w (coerceValue p m w)⟩
  | none =>
    ⟨updTable (lookupHash s m).2 m
        (updHash (updHash (lookupHash s m).1 p.pid (createValue p m)) p.pid
          (coerceValue p m (createValue p m))),
      createTrace p m ++ [.write m p.pid (createValue p m)] ++
        coerceTrace p m (createValue p m) ++
        [.write m p.pid (coerceValue p m (createValue p m))] ++
        maybeNotify p m (createValue p m)
          (coerceValue p m (createValue p m))⟩

/-- The "old value" baseline a `set`/`coerce` call resolves for an owner:
the stored value when the slot is set, the freshly computed default when
unset.  (Stated from the spec's words; used to phrase claims about the
baseline and the `coerce`/`set` correspondence.) -/
def oldOf (p : Property U) (m : Nat) (s : Store U) : Option U :=
  match (lookupHash s m).1 p.pid with
  | some w => w
  | none => createValue p m

end V1

namespace V2

/-- Variant 2 descriptor (source lines 512-666): the configuration captured
from `IPropertyOptions` (no `name`, no per-descriptor `notify` option — the
notification channel is the static `Property.changedSignal`), plus the
minted `_pid`. -/
structure Property (U : Type) where
  value : Option U
  create : Option (Nat → Option U)
  coerce : Option (Nat → Option U → Option U)
  compare : Option (Option U → Option U → Bool)
  changed : Bool
  pid : Nat

/-- `new Property({})` — the constructor's `options` parameter defaults to
the empty object, so every configuration field is absent. -/
def mkDefault (U : Type) (pid : Nat) : Property U :=
  ⟨none, none, none, none, false, pid⟩

variable {U : Type} [DecidableEq U]

/-- `_createValue(owner)`: factory if configured, else the `value` option. -/
def createValue (p : Property U) (m : Nat) : Option U :=
  match p.create with
  | some c => c m
  | none => p.value

/-- Events produced by `_createValue`: the factory call, when configured. -/
def createTrace (p : Property U) (m : Nat) : List (Event U) :=
  match p.create with
  | some _ => [.createCall m]
  | none => []

/-- `_coerceValue(owner, value)`: coercion if configured, else the value. -/
def coerceValue (p : Property U) (m : Nat) (v : Option U) : Option U :=
  match p.coerce with
  | some c => c m v
  | none => v

/-- Events produced by `_coerceValue`: the coerce call, when configured. -/
def coerceTrace (p : Property U) (m : Nat) (v : Option U) : List (Event U) :=
  match p.coerce with
  | some _ => [.coerceCall m v]
  | none => []

/-- `_compareValue(oldValue, newValue)`: the `compare` option, else `===`. -/
def compareValue (p : Property U) (a b : Option U) : Bool :=
  match p.compare with
  | some c => c a b
  | none => decide (a = b)

/-- `_maybeNotify(owner, oldValue, newValue)` (source lines 652-658): the
comparison is always invoked; when it reports a difference, `changed` runs
(when configured) and then `Property.getChanged(owner).emit(...)` fires
unconditionally on the static signal. -/
def maybeNotify (p : Property U) (m : Nat) (a b : Option U) : List (Event U) :=
  .compareCall a b ::
    (if compareValue p a b then []
     else
       (if p.changed then [.changedCall m a b] else []) ++
         [.changedSignalEmit m p.pid a b])

/-- `get(owner)` (source lines 564-573). -/
def get (p : Property U) (m : Nat) (s : Store U) : GetRes U :=
  match (lookupHash s m).1 p.pid with
  | some w => ⟨w, (lookupHash s m).2, []⟩
  | none =>
    ⟨createValue p m,
      updTable (lookupHash s m).2 m
        (updHash (lookupHash s m).1 p.pid (createValue p m)),
      createTrace p m ++ [.write m p.pid (createValue p m)]⟩

/-- `set(owner, value)` (source lines 589-599).  Unlike variant 1, the unset
branch is `oldValue = this._createValue(owner)` — the default is *not*
written into the table; the only table write is the coerced new value. -/
def set (p : Property U) (m : Nat) (v : Option U) (s : Store U) : OpRes U :=
  match (lookupHash s m).1 p.pid with
  | some w =>
    ⟨updTable (lookupHash s m).2 m
        (updHash (lookupHash s m).1 p.pid (coerceValue p m v)),
      coerceTrace p m v ++ [.write m p.pid (coerceValue p m v)] ++
        maybeNotify p m w (coerceValue p m v)⟩
  | none =>
    ⟨updTable (lookupHash s m).2 m
        (updHash (lookupHash s m).1 p.pid (coerceValue p m v)),
      createTrace p m ++ coerceTrace p m v ++
        [.write m p.pid (coerceValue p m v)] ++
        maybeNotify p m (createValue p m) (coerceValue p m v)⟩

/-- `coerce(owner)` (source lines 613-623). -/
def coerce (p : Property U) (m : Nat) (s : Store U) : OpRes U :=
  match (lookupHash s m).1 p.pid with
  | some w =>
    ⟨updTable (lookupHash s m).2 m
        (updHash (lookupHash s m).1 p.pid (coerceValue p m w)),
      coerceTrace p m w ++ [.write m p.pid (coerceValue p m w)] ++
        maybeNotify p m w (coerceValue p m w)⟩
  | none =>
    ⟨updTable (lookupHash s m).2 m
        (updHash (lookupHash s m).1 p.pid
          (coerceValue p m (createValue p m))),
      createTrace p m ++ coerceTrace p m (createValue p m) ++
        [.write m p.pid (coerceValue p m (createValue p m))] ++
        maybeNotify p m (createValue p m)
          (coerceValue p m (createValue p m))⟩

/-- The "old value" baseline a `set`/`coerce` call resolves for an owner:
the stored value when the slot is set, the freshly computed default when
unset.  (Stated from the spec's words.) -/
def oldOf (p : Property U) (m : Nat) (s : Store U) : Option U :=
  match (lookupHash s m).1 p.pid with
  | some w => w
  | none => createValue p m

end V2

/-- An operation a client may perform against owner `m1` with one
descriptor: `p.set(m1, v)`, `p.coerce(m1)`, or `clearPropertyData(m1)`. -/
inductive Op (U : Type) where
  | setOp (v : Option U)
  | coerceOp
  | clearOp

/-- Run a sequence of operations against owner `m` with variant 1
descriptor `p`, threading the store. -/
def runOps1 {U : Type} [DecidableEq U] (p : V1.Property U) (m : Nat) :
    List (Op U) → Store U → Store U
  | [], s => s
  | .setOp v :: rest, s => runOps1 p m rest ((V1.set p m v s).st)
  | .coerceOp :: rest, s => runOps1 p m rest ((V1.coerce p m s).st)
  | .clearOp :: rest, s => runOps1 p m rest ((clearPropertyData m s).1)

/-- Run a sequence of operations against owner `m` with variant 2
descriptor `p`, threading the store. -/
def runOps2 {U : Type} [DecidableEq U] (p : V2.Property U) (m : Nat) :
    List (Op U) → Store U → Store U
  | [], s => s
  | .setOp v :: rest, s => runOps2 p m rest ((V2.set p m v s).st)
  | .coerceOp :: rest, s => runOps2 p m rest ((V2.coerce p m s).st)
  | .clearOp :: rest, s => runOps2 p m rest ((clearPropertyData m s).1)

/-- A concrete store for witnesses: owner `0` has a table whose slot for
pid `0` is set to the value `5`. -/
def sampleStore : Store Nat :=
  updTable emptyStore 0 (updHash emptyHash 0 (some 5))

/-! ### Basic store lemmas -/

section StoreLemmas

variable {U : Type}

@[simp]
lemma updHash_self (h : Hash U) (pid : Nat) (w : Option U) :
    updHash h pid w pid = some w := by
  simp [updHash]

@[simp]
lemma updTable_self (s : Store U) (m : Nat) (h : Hash U) :
    updTable s m h m = some h := by
  simp [updTable]

lemma updTable_ne (s : Store U) (m : Nat) (h : Hash U) {o : Nat} (hne : o ≠ m) :
    updTable s m h o = s o := by
  simp [updTable, hne]

lemma lookupHash_snd_at (s : Store U) (m : Nat) :
    (lookupHash s m).2 m = some ((lookupHash s m).1) := by
  unfold lookupHash
  cases hs : s m <;> simp [hs]

lemma lookupHash_snd_ne (s : Store U) (m : Nat) {o : Nat} (hne : o ≠ m) :
    (lookupHash s m).2 o = s o := by
  unfold lookupHash
  cases hs : s m <;> simp [updTable, hne]

lemma lookupHash_updTable_fst (s : Store U) (m : Nat) (h : Hash U) :
    (lookupHash (updTable s m h) m).1 = h := by
  unfold lookupHash
  simp

end StoreLemmas

/-! ### Branch characterizations of the variant 1 operations -/

namespace V1

variable {U : Type} [DecidableEq U]

lemma get_set_branch_v1 (p : Property U) (m : Nat) (s : Store U) {w : Option U}
    (h : (lookupHash s m).1 p.pid = some w) :
    get p m s = ⟨w, s, []⟩ := by
  obtain ⟨hh, hs⟩ : ∃ hh, s m = some hh := by
    cases hs : s m with
    | some hh => exact ⟨hh, rfl⟩
    | none =>
      unfold lookupHash at h
      rw [hs] at h
      simp [emptyHash] at h
  have h1 : lookupHash s m = (hh, s) := by unfold lookupHash; rw [hs]
  rw [h1] at h
  unfold get
  rw [h1, h]

lemma get_unset_branch_v1 (p : Property U) (m : Nat) (s : Store U)
    (h : (lookupHash s m).1 p.pid = none) :
    get p m s =
      ⟨createValue p m,
        updTable (lookupHash s m).2 m
          (updHash (lookupHash s m).1 p.pid (createValue p m)),
        createTrace p m ++ [.write m p.pid (createValue p m)]⟩ := by
  unfold get
  rw [h]

lemma set_set_branch_v1 (p : Property U) (m : Nat) (v : Option U) (s : Store U)
    {w : Option U} (h : (lookupHash s m).1 p.pid = some w) :
    set p m v s =
      ⟨updTable (lookupHash s m).2 m
          (updHash (lookupHash s m).1 p.pid (coerceValue p m v)),
        coerceTrace p m v ++ [.write m p.pid (coerceValue p m v)] ++
          maybeNotify p m w (coerceValue p m v)⟩ := by
  unfold set
  rw [h]

lemma set_unset_branch_v1 (p : Property U) (m : Nat) (v : Option U) (s : Store U)
    (h : (lookupHash s m).1 p.pid = none) :
    set p m v s =
      ⟨updTable (lookupHash s m).2 m
          (updHash (updHash (lookupHash s m).1 p.pid (createValue p m)) p.pid
            (coerceValue p m v)),
        createTrace p m ++ [.write m p.pid (createValue p m)] ++
          coerceTrace p m v ++ [.write m p.pid (coerceValue p m v)] ++
          maybeNotify p m (createValue p m) (coerceValue p m v)⟩ := by
  unfold set
  rw [h]

lemma coerce_set_branch_v1 (p : Property U) (m : Nat) (s : Store U)
    {w : Option U} (h : (lookupHash s m).1 p.pid = some w) :
    coerce p m s =
      ⟨updTable (lookupHash s m).2 m
          (updHash (lookupHash s m).1 p.pid (coerceValue p m w)),
        coerceTrace p m w ++ [.write m p.pid (coerceValue p m w)] ++
          maybeNotify p m w (coerceValue p m w)⟩ := by
  unfold coerce
  rw [h]

lemma coerce_unset_branch_v1 (p : Property U) (m : Nat) (s : Store U)
    (h : (lookupHash s m).1 p.pid = none) :
    coerce p m s =
      ⟨updTable (lookupHash s m).2 m
          (updHash (updHash (lookupHash s m).1 p.pid (createValue p m)) p.pid
            (coerceValue p m (createValue p m))),
        createTrace p m ++ [.write m p.pid (createValue p m)] ++
          coerceTrace p m (createValue p m) ++
          [.write m p.pid (coerceValue p m (createValue p m))] ++
          maybeNotify p m (createValue p m)
            (coerceValue p m (createValue p m))⟩ := by
  unfold coerce
  rw [h]

lemma oldOf_set_v1 (p : Property U) (m : Nat) (s : Store U) {w : Option U}
    (h : (lookupHash s m).1 p.pid = some w) : oldOf p m s = w := by
  unfold oldOf
  rw [h]

lemma oldOf_unset_v1 (p : Property U) (m : Nat) (s : Store U)
    (h : (lookupHash s m).1 p.pid = none) : oldOf p m s = createValue p m := by
  unfold oldOf
  rw [h]

end V1

/-! ### Branch characterizations of the variant 2 operations -/

namespace V2

variable {U : Type} [DecidableEq U]

lemma get_set_branch_v2 (p : Property U) (m : Nat) (s : Store U) {w : Option U}
    (h : (lookupHash s m).1 p.pid = some w) :
    get p m s = ⟨w, s, []⟩ := by
  obtain ⟨hh, hs⟩ : ∃ hh, s m = some hh := by
    cases hs : s m with
    | some hh => exact ⟨hh, rfl⟩
    | none =>
      unfold lookupHash at h
      rw [hs] at h
      simp [emptyHash] at h
  have h1 : lookupHash s m = (hh, s) := by unfold lookupHash; rw [hs]
  rw [h1] at h
  unfold get
  rw [h1, h]

lemma get_unset_branch_v2 (p : Property U) (m : Nat) (s : Store U)
    (h : (lookupHash s m).1 p.pid = none) :
    get p m s =
      ⟨createValue p m,
        updTable (lookupHash s m).2 m
          (updHash (lookupHash s m).1 p.pid (createValue p m)),
        createTrace p m ++ [.write m p.pid (createValue p m)]⟩ := by
  unfold get
  rw [h]

lemma set_set_branch_v2 (p : Property U) (m : Nat) (v : Option U) (s : Store U)
    {w : Option U} (h : (lookupHash s m).1 p.pid = some w) :
    set p m v s =
      ⟨updTable (lookupHash s m).2 m
          (updHash (lookupHash s m).1 p.pid (coerceValue p m v)),
        coerceTrace p m v ++ [.write m p.pid (coerceValue p m v)] ++
          maybeNotify p m w (coerceValue p m v)⟩ := by
  unfold set
  rw [h]

lemma set_unset_branch_v2 (p : Property U) (m : Nat) (v : Option U) (s : Store U)
    (h : (lookupHash s m).1 p.pid = none) :
    set p m v s =
      ⟨updTable (lookupHash s m).2 m
          (updHash (lookupHash s m).1 p.pid (coerceValue p m v)),
        createTrace p m ++ coerceTrace p m v ++
          [.write m p.pid (coerceValue p m v)] ++
          maybeNotify p m (createValue p m) (coerceValue p m v)⟩ := by
  unfold set
  rw [h]

lemma coerce_set_branch_v2 (p : Property U) (m : Nat) (s : Store U)
    {w : Option U} (h : (lookupHash s m).1 p.pid = some w) :
    coerce p m s =
      ⟨updTable (lookupHash s m).2 m
          (updHash (lookupHash s m).1 p.pid (coerceValue p m w)),
        coerceTrace p m w ++ [.write m p.pid (coerceValue p m w)] ++
          maybeNotify p m w (coerceValue p m w)⟩ := by
  unfold coerce
  rw [h]

lemma coerce_unset_branch_v2 (p : Property U) (m : Nat) (s : Store U)
    (h : (lookupHash s m).1 p.pid = none) :
    coerce p m s =
      ⟨updTable (lookupHash s m).2 m
          (updHash (lookupHash s m).1 p.pid
            (coerceValue p m (createValue p m))),
        createTrace p m ++ coerceTrace p m (createValue p m) ++
          [.write m p.pid (coerceValue p m (createValue p m))] ++
          maybeNotify p m (createValue p m)
            (coerceValue p m (createValue p m))⟩ := by
  unfold coerce
  rw [h]

lemma oldOf_set_v2 (p : Property U) (m : Nat) (s : Store U) {w : Option U}
    (h : (lookupHash s m).1 p.pid = some w) : oldOf p m s = w := by
  unfold oldOf
  rw [h]

lemma oldOf_unset_v2 (p : Property U) (m : Nat) (s : Store U)
    (h : (lookupHash s m).1 p.pid = none) : oldOf p m s = createValue p m := by
  unfold oldOf
  rw [h]

end V2

/-! ### Trace classification lemmas -/

namespace V1

variable {U : Type} [DecidableEq U]

lemma createTrace_eq_v1 (p : Property U) (m : Nat) :
    createTrace p m = [] ∨ createTrace p m = [.createCall m] := by
  cases hc : p.create <;> simp [createTrace, hc]

lemma coerceTrace_eq_v1 (p : Property U) (m : Nat) (v : Option U) :
    coerceTrace p m v = [] ∨ coerceTrace p m v = [.coerceCall m v] := by
  cases hc : p.coerce <;> simp [coerceTrace, hc]

lemma countP_compare_createTrace_v1 (p : Property U) (m : Nat) :
    (createTrace p m).countP (fun e => isCompare e) = 0 := by
  rcases createTrace_eq_v1 p m with h | h <;> simp [h, isCompare]

lemma countP_compare_coerceTrace_v1 (p : Property U) (m : Nat) (v : Option U) :
    (coerceTrace p m v).countP (fun e => isCompare e) = 0 := by
  rcases coerceTrace_eq_v1 p m v with h | h <;> simp [h, isCompare]

lemma maybeNotify_not_configured_v1 (p : Property U) (m : Nat) (a b : Option U)
    (h1 : p.changed = false) (h2 : p.notify = false) :
    maybeNotify p m a b = [] := by
  simp [maybeNotify, h1, h2]

lemma maybeNotify_configured_v1 (p : Property U) (m : Nat) (a b : Option U)
    (h : p.changed || p.notify) :
    maybeNotify p m a b =
      .compareCall a b ::
        (if compareValue p a b then []
         else
           (if p.changed then [.changedCall m a b] else []) ++
             (if p.notify then [.notifyEmit m p.name a b] else [])) := by
  unfold maybeNotify
  rcases Bool.or_eq_true_iff.1 h with hc | hn
  · simp [hc]
  · simp [hn]

lemma countP_compare_maybeNotify_v1 (p : Property U) (m : Nat) (a b : Option U) :
    (maybeNotify p m a b).countP (fun e => isCompare e) =
      if p.changed || p.notify then 1 else 0 := by
  cases hch : p.changed <;> cases hn : p.notify <;>
    simp [maybeNotify, hch, hn, isCompare, List.countP_cons, List.countP_append] <;>
    cases hcmp : compareValue p a b <;>
    simp [hcmp, isCompare, List.countP_append, List.countP_cons]

lemma filter_effect_createTrace_v1 (p : Property U) (m : Nat) :
    (createTrace p m).filter (fun e => isEffect e) = [] := by
  rcases createTrace_eq_v1 p m with h | h <;>
    simp [h, isEffect, isChangedEv, isNotifyEv]

lemma filter_effect_coerceTrace_v1 (p : Property U) (m : Nat) (v : Option U) :
    (coerceTrace p m v).filter (fun e => isEffect e) = [] := by
  rcases coerceTrace_eq_v1 p m v with h | h <;>
    simp [h, isEffect, isChangedEv, isNotifyEv]

lemma filter_effect_maybeNotify_v1 (p : Property U) (m : Nat) (a b : Option U) :
    (maybeNotify p m a b).filter (fun e => isEffect e) =
      if (p.changed || p.notify) && !compareValue p a b then
        (if p.changed then [.changedCall m a b] else []) ++
          (if p.notify then [.notifyEmit m p.name a b] else [])
      else [] := by
  cases hch : p.changed <;> cases hn : p.notify <;>
    simp [maybeNotify, hch, hn, isEffect, isChangedEv, isNotifyEv, isCompare] <;>
    cases hcmp : compareValue p a b <;>
    simp [hcmp, isEffect, isChangedEv, isNotifyEv, isCompare]

lemma filter_write_createTrace_v1 (p : Property U) (m : Nat) :
    (createTrace p m).filter (fun e => isWrite e) = [] := by
  rcases createTrace_eq_v1 p m with h | h <;> simp [h, isWrite]

lemma filter_write_coerceTrace_v1 (p : Property U) (m : Nat) (v : Option U) :
    (coerceTrace p m v).filter (fun e => isWrite e) = [] := by
  rcases coerceTrace_eq_v1 p m v with h | h <;> simp [h, isWrite]

lemma filter_write_maybeNotify_v1 (p : Property U) (m : Nat) (a b : Option U) :
    (maybeNotify p m a b).filter (fun e => isWrite e) = [] := by
  cases hch : p.changed <;> cases hn : p.notify <;>
    simp [maybeNotify, hch, hn, isWrite] <;>
    cases hcmp : compareValue p a b <;>
    simp [hcmp, isWrite]

lemma notifyPhase_false_createTrace_v1 (p : Property U) (m : Nat) :
    ∀ e ∈ createTrace p m, isNotifyPhase e = false := by
  rcases createTrace_eq_v1 p m with h | h <;>
    simp [h, isNotifyPhase, isCompare, isEffect, isChangedEv, isNotifyEv]

lemma notifyPhase_false_coerceTrace_v1 (p : Property U) (m : Nat) (v : Option U) :
    ∀ e ∈ coerceTrace p m v, isNotifyPhase e = false := by
  rcases coerceTrace_eq_v1 p m v with h | h <;>
    simp [h, isNotifyPhase, isCompare, isEffect, isChangedEv, isNotifyEv]

lemma write_false_maybeNotify_v1 (p : Property U) (m : Nat) (a b : Option U) :
    ∀ e ∈ maybeNotify p m a b, isWrite e = false := by
  intro e he
  have := filter_write_maybeNotify_v1 p m a b
  by_contra hw
  have hw' : isWrite e = true := by
    cases hcase : isWrite e
    · exact absurd hcase hw
    · rfl
  have : e ∈ (maybeNotify p m a b).filter (fun e => isWrite e) :=
    List.mem_filter.2 ⟨he, hw'⟩
  rw [filter_write_maybeNotify_v1] at this
  simp at this

end V1

namespace V2

variable {U : Type} [DecidableEq U]

lemma createTrace_eq_v2 (p : Property U) (m : Nat) :
    createTrace p m = [] ∨ createTrace p m = [.createCall m] := by
  cases hc : p.create <;> simp [createTrace, hc]

lemma coerceTrace_eq_v2 (p : Property U) (m : Nat) (v : Option U) :
    coerceTrace p m v = [] ∨ coerceTrace p m v = [.coerceCall m v] := by
  cases hc : p.coerce <;> simp [coerceTrace, hc]

lemma countP_compare_createTrace_v2 (p : Property U) (m : Nat) :
    (createTrace p m).countP (fun e => isCompare e) = 0 := by
  rcases createTrace_eq_v2 p m with h | h <;> simp [h, isCompare]

lemma countP_compare_coerceTrace_v2 (p : Property U) (m : Nat) (v : Option U) :
    (coerceTrace p m v).countP (fun e => isCompare e) = 0 := by
  rcases coerceTrace_eq_v2 p m v with h | h <;> simp [h, isCompare]

lemma countP_compare_maybeNotify_v2 (p : Property U) (m : Nat) (a b : Option U) :
    (maybeNotify p m a b).countP (fun e => isCompare e) = 1 := by
  cases hch : p.changed <;>
    simp [maybeNotify, hch, isCompare, List.countP_cons, List.countP_append] <;>
    cases hcmp : compareValue p a b <;>
    simp [hcmp, isCompare, List.countP_append, List.countP_cons]

lemma filter_effect_createTrace_v2 (p : Property U) (m : Nat) :
    (createTrace p m).filter (fun e => isEffect e) = [] := by
  rcases createTrace_eq_v2 p m with h | h <;>
    simp [h, isEffect, isChangedEv, isNotifyEv]

lemma filter_effect_coerceTrace_v2 (p : Property U) (m : Nat) (v : Option U) :
    (coerceTrace p m v).filter (fun e => isEffect e) = [] := by
  rcases coerceTrace_eq_v2 p m v with h | h <;>
    simp [h, isEffect, isChangedEv, isNotifyEv]

lemma filter_effect_maybeNotify_v2 (p : Property U) (m : Nat) (a b : Option U) :
    (maybeNotify p m a b).filter (fun e => isEffect e) =
      if compareValue p a b then []
      else
        (if p.changed then [.changedCall m a b] else []) ++
          [.changedSignalEmit m p.pid a b] := by
  cases hch : p.changed <;>
    simp [maybeNotify, hch, isEffect, isChangedEv, isNotifyEv, isCompare] <;>
    cases hcmp : compareValue p a b <;>
    simp [hcmp, isEffect, isChangedEv, isNotifyEv, isCompare]

lemma filter_write_createTrace_v2 (p : Property U) (m : Nat) :
    (createTrace p m).filter (fun e => isWrite e) = [] := by
  rcases createTrace_eq_v2 p m with h | h <;> simp [h, isWrite]

lemma filter_write_coerceTrace_v2 (p : Property U) (m : Nat) (v : Option U) :
    (coerceTrace p m v).filter (fun e => isWrite e) = [] := by
  rcases coerceTrace_eq_v2 p m v with h | h <;> simp [h, isWrite]

lemma filter_write_maybeNotify_v2 (p : Property U) (m : Nat) (a b : Option U) :
    (maybeNotify p m a b).filter (fun e => isWrite e) = [] := by
  cases hch : p.changed <;>
    simp [maybeNotify, hch, isWrite] <;>
    cases hcmp : compareValue p a b <;>
    simp [hcmp, isWrite]

lemma notifyPhase_false_createTrace_v2 (p : Property U) (m : Nat) :
    ∀ e ∈ createTrace p m, isNotifyPhase e = false := by
  rcases createTrace_eq_v2 p m with h | h <;>
    simp [h, isNotifyPhase, isCompare, isEffect, isChangedEv, isNotifyEv]

lemma notifyPhase_false_coerceTrace_v2 (p : Property U) (m : Nat) (v : Option U) :
    ∀ e ∈ coerceTrace p m v, isNotifyPhase e = false := by
  rcases coerceTrace_eq_v2 p m v with h | h <;>
    simp [h, isNotifyPhase, isCompare, isEffect, isChangedEv, isNotifyEv]

lemma write_false_maybeNotify_v2 (p : Property U) (m : Nat) (a b : Option U) :
    ∀ e ∈ maybeNotify p m a b, isWrite e = false := by
  intro e he
  by_contra hw
  have hw' : isWrite e = true := by
    cases hcase : isWrite e
    · exact absurd hcase hw
    · rfl
  have : e ∈ (maybeNotify p m a b).filter (fun e => isWrite e) :=
    List.mem_filter.2 ⟨he, hw'⟩
  rw [filter_write_maybeNotify_v2] at this
  simp at this

end V2

/-! ### Isolation lemmas -/

namespace V1

variable {U : Type} [DecidableEq U]

lemma set_st_ne_v1 (p : Property U) (m : Nat) (v : Option U) (s : Store U)
    {o : Nat} (hne : o ≠ m) : (set p m v s).st o = s o := by
  cases hsl : (lookupHash s m).1 p.pid with
  | some w =>
    rw [set_set_branch_v1 p m v s hsl]
    simp only [updTable_ne _ _ _ hne, lookupHash_snd_ne s m hne]
  | none =>
    rw [set_unset_branch_v1 p m v s hsl]
    simp only [updTable_ne _ _ _ hne, lookupHash_snd_ne s m hne]

lemma coerce_st_ne_v1 (p : Property U) (m : Nat) (s : Store U)
    {o : Nat} (hne : o ≠ m) : (coerce p m s).st o = s o := by
  cases hsl : (lookupHash s m).1 p.pid with
  | some w =>
    rw [coerce_set_branch_v1 p m s hsl]
    simp only [updTable_ne _ _ _ hne, lookupHash_snd_ne s m hne]
  | none =>
    rw [coerce_unset_branch_v1 p m s hsl]
    simp only [updTable_ne _ _ _ hne, lookupHash_snd_ne s m hne]

lemma get_val_congr_v1 (p : Property U) (m : Nat) {s s' : Store U}
    (h : s m = s' m) : (get p m s).val = (get p m s').val := by
  have h1 : (lookupHash s m).1 = (lookupHash s' m).1 := by
    unfold lookupHash
    rw [h]
    cases hsm : s' m <;> simp
  unfold get
  rw [h1]
  cases hc : (lookupHash s' m).1 p.pid <;> simp

end V1

namespace V2

variable {U : Type} [DecidableEq U]

lemma set_st_ne_v2 (p : Property U) (m : Nat) (v : Option U) (s : Store U)
    {o : Nat} (hne : o ≠ m) : (set p m v s).st o = s o := by
  cases hsl : (lookupHash s m).1 p.pid with
  | some w =>
    rw [set_set_branch_v2 p m v s hsl]
    simp only [updTable_ne _ _ _ hne, lookupHash_snd_ne s m hne]
  | none =>
    rw [set_unset_branch_v2 p m v s hsl]
    simp only [updTable_ne _ _ _ hne, lookupHash_snd_ne s m hne]

lemma coerce_st_ne_v2 (p : Property U) (m : Nat) (s : Store U)
    {o : Nat} (hne : o ≠ m) : (coerce p m s).st o = s o := by
  cases hsl : (lookupHash s m).1 p.pid with
  | some w =>
    rw [coerce_set_branch_v2 p m s hsl]
    simp only [updTable_ne _ _ _ hne, lookupHash_snd_ne s m hne]
  | none =>
    rw [coerce_unset_branch_v2 p m s hsl]
    simp only [updTable_ne _ _ _ hne, lookupHash_snd_ne s m hne]

lemma get_val_congr_v2 (p : Property U) (m : Nat) {s s' : Store U}
    (h : s m = s' m) : (get p m s).val = (get p m s').val := by
  have h1 : (lookupHash s m).1 = (lookupHash s' m).1 := by
    unfold lookupHash
    rw [h]
    cases hsm : s' m <;> simp
  unfold get
  rw [h1]
  cases hc : (lookupHash s' m).1 p.pid <;> simp

end V2

lemma clear_st_ne {U : Type} (m : Nat) (s : Store U) {o : Nat}
    (hne : o ≠ m) : (clearPropertyData m s).1 o = s o := by
  simp [clearPropertyData, hne]

/-! ### Claim theorems -/

/-- C2: for every `set` or `coerce` call, the equality predicate is invoked
exactly once when a `changed` callback or a notification channel is
configured, and never otherwise.  In variant 1 the configuration is the
`changed`/`notify` options; in variant 2 the static `changedSignal` channel
is always present, so the predicate is invoked exactly once on every call. -/
theorem claim2_notify_gating {U : Type} [DecidableEq U]
    (p1 : V1.Property U) (p2 : V2.Property U) (m : Nat) (v : Option U)
    (s : Store U) :
    ((V1.set p1 m v s).tr.countP (fun e => isCompare e) =
        if p1.changed || p1.notify then 1 else 0)
  ∧ ((V1.coerce p1 m s).tr.countP (fun e => isCompare e) =
        if p1.changed || p1.notify then 1 else 0)
  ∧ ((V2.set p2 m v s).tr.countP (fun e => isCompare e) = 1)
  ∧ ((V2.coerce p2 m s).tr.countP (fun e => isCompare e) = 1) := by
  refine ⟨?_, ?_, ?_, ?_⟩
  · cases hsl : (lookupHash s m).1 p1.pid with
    | some w =>
      rw [V1.set_set_branch_v1 p1 m v s hsl]
      simp only [List.countP_append, List.countP_cons, List.countP_nil,
        V1.countP_compare_coerceTrace_v1, V1.countP_compare_maybeNotify_v1]
      simp [isCompare]
    | none =>
      rw [V1.set_unset_branch_v1 p1 m v s hsl]
      simp only [List.countP_append, List.countP_cons, List.countP_nil,
        V1.countP_compare_createTrace_v1, V1.countP_compare_coerceTrace_v1,
        V1.countP_compare_maybeNotify_v1]
      simp [isCompare]
  · cases hsl : (lookupHash s m).1 p1.pid with
    | some w =>
      rw [V1.coerce_set_branch_v1 p1 m s hsl]
      simp only [List.countP_append, List.countP_cons, List.countP_nil,
        V1.countP_compare_coerceTrace_v1, V1.countP_compare_maybeNotify_v1]
      simp [isCompare]
    | none =>
      rw [V1.coerce_unset_branch_v1 p1 m s hsl]
      simp only [List.countP_append, List.countP_cons, List.countP_nil,
        V1.countP_compare_createTrace_v1, V1.countP_compare_coerceTrace_v1,
        V1.countP_compare_maybeNotify_v1]
      simp [isCompare]
  · cases hsl : (lookupHash s m).1 p2.pid with
    | some w =>
      rw [V2.set_set_branch_v2 p2 m v s hsl]
      simp only [List.countP_append, List.countP_cons, List.countP_nil,
        V2.countP_compare_coerceTrace_v2, V2.countP_compare_maybeNotify_v2]
      simp [isCompare]
    | none =>
      rw [V2.set_unset_branch_v2 p2 m v s hsl]
      simp only [List.countP_append, List.countP_cons, List.countP_nil,
        V2.countP_compare_createTrace_v2, V2.countP_compare_coerceTrace_v2,
        V2.countP_compare_maybeNotify_v2]
      simp [isCompare]
  · cases hsl : (lookupHash s m).1 p2.pid with
    | some w =>
      rw [V2.coerce_set_branch_v2 p2 m s hsl]
      simp only [List.countP_append, List.countP_cons, List.countP_nil,
        V2.countP_compare_coerceTrace_v2, V2.countP_compare_maybeNotify_v2]
      simp [isCompare]
    | none =>
      rw [V2.coerce_unset_branch_v2 p2 m s hsl]
      simp only [List.countP_append, List.countP_cons, List.countP_nil,
        V2.countP_compare_createTrace_v2, V2.countP_compare_coerceTrace_v2,
        V2.countP_compare_maybeNotify_v2]
      simp [isCompare]

/-- C4: `get` never invokes `coerce`, `compare` or `changed` and never emits
a notification (in either variant); on a set slot it returns the stored
value unchanged and leaves the store untouched; on an unset slot it returns
the computed default (factory over literal; `undefined` when neither is
configured), and stores it, making the slot set. -/
theorem claim4_get_pure {U : Type} [DecidableEq U]
    (p1 : V1.Property U) (p2 : V2.Property U) (m : Nat) (s : Store U) :
    ((V1.get p1 m s).tr.countP
        (fun e => isCoerceEv e || isCompare e || isEffect e) = 0)
  ∧ ((V2.get p2 m s).tr.countP
        (fun e => isCoerceEv e || isCompare e || isEffect e) = 0)
  ∧ (∀ w, (lookupHash s m).1 p1.pid = some w →
        (V1.get p1 m s).val = w ∧ (V1.get p1 m s).st = s)
  ∧ (∀ w, (lookupHash s m).1 p2.pid = some w →
        (V2.get p2 m s).val = w ∧ (V2.get p2 m s).st = s)
  ∧ ((lookupHash s m).1 p1.pid = none →
        (V1.get p1 m s).val = V1.createValue p1 m
      ∧ (∀ c, p1.create = some c → (V1.get p1 m s).val = c m)
      ∧ (p1.create = none → (V1.get p1 m s).val = p1.value)
      ∧ (p1.create = none → p1.value = none → (V1.get p1 m s).val = none)
      ∧ (lookupHash (V1.get p1 m s).st m).1 p1.pid =
          some ((V1.get p1 m s).val))
  ∧ ((lookupHash s m).1 p2.pid = none →
        (V2.get p2 m s).val = V2.createValue p2 m
      ∧ (∀ c, p2.create = some c → (V2.get p2 m s).val = c m)
      ∧ (p2.create = none → (V2.get p2 m s).val = p2.value)
      ∧ (p2.create = none → p2.value = none → (V2.get p2 m s).val = none)
      ∧ (lookupHash (V2.get p2 m s).st m).1 p2.pid =
          some ((V2.get p2 m s).val)) := by
  refine ⟨?_, ?_, ?_, ?_, ?_, ?_⟩
  · cases hsl : (lookupHash s m).1 p1.pid with
    | some w => rw [V1.get_set_branch_v1 p1 m s hsl]; simp
    | none =>
      rw [V1.get_unset_branch_v1 p1 m s hsl]
      rcases V1.createTrace_eq_v1 p1 m with h | h <;>
        simp [h, List.countP_append, List.countP_cons, isCoerceEv, isCompare,
          isEffect, isChangedEv, isNotifyEv]
  · cases hsl : (lookupHash s m).1 p2.pid with
    | some w => rw [V2.get_set_branch_v2 p2 m s hsl]; simp
    | none =>
      rw [V2.get_unset_branch_v2 p2 m s hsl]
      rcases V2.createTrace_eq_v2 p2 m with h | h <;>
        simp [h, List.countP_append, List.countP_cons, isCoerceEv, isCompare,
          isEffect, isChangedEv, isNotifyEv]
  · intro w hsl
    rw [V1.get_set_branch_v1 p1 m s hsl]
    exact ⟨rfl, rfl⟩
  · intro w hsl
    rw [V2.get_set_branch_v2 p2 m s hsl]
    exact ⟨rfl, rfl⟩
  · intro hsl
    rw [V1.get_unset_branch_v1 p1 m s hsl]
    refine ⟨rfl, ?_, ?_, ?_, ?_⟩
    · intro c hc; simp [V1.createValue, hc]
    · intro hc; simp [V1.createValue, hc]
    · intro hc hv; simp [V1.createValue, hc, hv]
    · simp [lookupHash_updTable_fst]
  · intro hsl
    rw [V2.get_unset_branch_v2 p2 m s hsl]
    refine ⟨rfl, ?_, ?_, ?_, ?_⟩
    · intro c hc; simp [V2.createValue, hc]
    · intro hc; simp [V2.createValue, hc]
    · intro hc hv; simp [V2.createValue, hc, hv]
    · simp [lookupHash_updTable_fst]

/-- C5: after `set(m, v)` the slot is set and holds the coerced value
`coerce(m, v)` (or `v` when no coercion is configured), and a subsequent
`get(m)` returns it — unconditionally, also when the coerced value equals
the prior value (the statement has no hypothesis on the comparison). -/
theorem claim5_set_commits {U : Type} [DecidableEq U]
    (p1 : V1.Property U) (p2 : V2.Property U) (m : Nat) (v : Option U)
    (s : Store U) :
    ((lookupHash (V1.set p1 m v s).st m).1 p1.pid =
        some (V1.coerceValue p1 m v))
  ∧ ((V1.get p1 m ((V1.set p1 m v s).st)).val = V1.coerceValue p1 m v)
  ∧ ((lookupHash (V2.set p2 m v s).st m).1 p2.pid =
        some (V2.coerceValue p2 m v))
  ∧ ((V2.get p2 m ((V2.set p2 m v s).st)).val = V2.coerceValue p2 m v) := by
  have h1 : (lookupHash (V1.set p1 m v s).st m).1 p1.pid =
      some (V1.coerceValue p1 m v) := by
    cases hsl : (lookupHash s m).1 p1.pid with
    | some w =>
      rw [V1.set_set_branch_v1 p1 m v s hsl]
      simp [lookupHash_updTable_fst]
    | none =>
      rw [V1.set_unset_branch_v1 p1 m v s hsl]
      simp [lookupHash_updTable_fst]
  have h2 : (lookupHash (V2.set p2 m v s).st m).1 p2.pid =
      some (V2.coerceValue p2 m v) := by
    cases hsl : (lookupHash s m).1 p2.pid with
    | some w =>
      rw [V2.set_set_branch_v2 p2 m v s hsl]
      simp [lookupHash_updTable_fst]
    | none =>
      rw [V2.set_unset_branch_v2 p2 m v s hsl]
      simp [lookupHash_updTable_fst]
  refine ⟨h1, ?_, h2, ?_⟩
  · rw [V1.get_set_branch_v1 p1 m _ h1]
  · rw [V2.get_set_branch_v2 p2 m _ h2]

/-- C7: `clearPropertyData(m)` runs no callback and emits nothing (its trace
is empty), removes `m`'s entire value table at once, is a no-op (not an
error) when `m` has no table, and afterwards `get` recomputes and returns
the default for every descriptor of either variant. -/
theorem claim7_clear_all_silent {U : Type} [DecidableEq U]
    (m : Nat) (s : Store U) :
    ((clearPropertyData m s).2 = [])
  ∧ ((clearPropertyData m s).1 m = none)
  ∧ (s m = none → (clearPropertyData m s).1 = s)
  ∧ (∀ p : V1.Property U,
      (V1.get p m (clearPropertyData m s).1).val = V1.createValue p m)
  ∧ (∀ p : V2.Property U,
      (V2.get p m (clearPropertyData m s).1).val = V2.createValue p m) := by
  have h0 : (clearPropertyData m s).1 m = none := by simp [clearPropertyData]
  refine ⟨rfl, h0, ?_, ?_, ?_⟩
  · intro h
    funext o
    by_cases ho : o = m
    · subst ho; simp [clearPropertyData, h]
    · simp [clearPropertyData, ho]
  · intro p
    have hsl : (lookupHash (clearPropertyData m s).1 m).1 p.pid = none := by
      unfold lookupHash
      rw [h0]
      rfl
    rw [V1.get_unset_branch_v1 p m _ hsl]
  · intro p
    have hsl : (lookupHash (clearPropertyData m s).1 m).1 p.pid = none := by
      unfold lookupHash
      rw [h0]
      rfl
    rw [V2.get_unset_branch_v2 p m _ hsl]

/-- C6: `coerce(m)` is observationally identical (same resulting store and
same event trace — hence the same comparison, notification-skip and ordering
behavior) to `set(m, old)`, where `old` is the current old value: the stored
value when the slot is set, the freshly computed default when unset. -/
theorem claim6_coerce_is_set_of_old {U : Type} [DecidableEq U]
    (p1 : V1.Property U) (p2 : V2.Property U) (m : Nat) (s : Store U) :
    V1.coerce p1 m s = V1.set p1 m (V1.oldOf p1 m s) s
  ∧ V2.coerce p2 m s = V2.set p2 m (V2.oldOf p2 m s) s := by
  constructor
  · cases hsl : (lookupHash s m).1 p1.pid with
    | some w =>
      rw [V1.oldOf_set_v1 p1 m s hsl, V1.coerce_set_branch_v1 p1 m s hsl,
        V1.set_set_branch_v1 p1 m w s hsl]
    | none =>
      rw [V1.oldOf_unset_v1 p1 m s hsl, V1.coerce_unset_branch_v1 p1 m s hsl,
        V1.set_unset_branch_v1 p1 m (V1.createValue p1 m) s hsl]
  · cases hsl : (lookupHash s m).1 p2.pid with
    | some w =>
      rw [V2.oldOf_set_v2 p2 m s hsl, V2.coerce_set_branch_v2 p2 m s hsl,
        V2.set_set_branch_v2 p2 m w s hsl]
    | none =>
      rw [V2.oldOf_unset_v2 p2 m s hsl, V2.coerce_unset_branch_v2 p2 m s hsl,
        V2.set_unset_branch_v2 p2 m (V2.createValue p2 m) s hsl]

/-- C1 counterexample: in variant 1, `set` on an unset slot performs a table
write that is not the coerced-new-value write.  Concretely: descriptor with
literal default `0`, no other options, owner `0`, candidate `1`, empty
store.  The coerced new value is `1`, yet the trace contains a write of the
default `0` and two table writes in total — refuting "the only table write
performed by set is the write of the coerced new value". -/
theorem claim1_counterexample :
    (V1.coerceValue (U := Nat)
        ⟨"x", some 0, none, none, none, false, false, 0⟩ 0 (some 1) = some 1)
  ∧ (Event.write 0 0 (some 0) ∈
      (V1.set (U := Nat) ⟨"x", some 0, none, none, none, false, false, 0⟩ 0
        (some 1) emptyStore).tr)
  ∧ ((V1.set (U := Nat) ⟨"x", some 0, none, none, none, false, false, 0⟩ 0
        (some 1) emptyStore).tr.countP (fun e => isWrite e) = 2) := by
  refine ⟨by decide, by decide, by decide⟩

/-- C1 amended: in variant 2, the only table write `set` performs is the
write of the coerced new value (the computed default is never stored); in
variant 1, `set` on an unset slot first writes the computed default into
the table and then the coerced new value, and on a set slot performs only
the coerced-new-value write. -/
theorem claim1_amended_writes {U : Type} [DecidableEq U]
    (p1 : V1.Property U) (p2 : V2.Property U) (m : Nat) (v : Option U)
    (s : Store U) :
    ((V2.set p2 m v s).tr.filter (fun e => isWrite e) =
        [.write m p2.pid (V2.coerceValue p2 m v)])
  ∧ ((lookupHash s m).1 p1.pid = none →
      (V1.set p1 m v s).tr.filter (fun e => isWrite e) =
        [.write m p1.pid (V1.createValue p1 m),
          .write m p1.pid (V1.coerceValue p1 m v)])
  ∧ (∀ w, (lookupHash s m).1 p1.pid = some w →
      (V1.set p1 m v s).tr.filter (fun e => isWrite e) =
        [.write m p1.pid (V1.coerceValue p1 m v)]) := by
  refine ⟨?_, ?_, ?_⟩
  · cases hsl : (lookupHash s m).1 p2.pid with
    | some w =>
      rw [V2.set_set_branch_v2 p2 m v s hsl]
      simp only [List.filter_append, V2.filter_write_coerceTrace_v2,
        V2.filter_write_maybeNotify_v2]
      simp [isWrite]
    | none =>
      rw [V2.set_unset_branch_v2 p2 m v s hsl]
      simp only [List.filter_append, V2.filter_write_createTrace_v2,
        V2.filter_write_coerceTrace_v2, V2.filter_write_maybeNotify_v2]
      simp [isWrite]
  · intro hsl
    rw [V1.set_unset_branch_v1 p1 m v s hsl]
    simp only [List.filter_append, V1.filter_write_createTrace_v1,
      V1.filter_write_coerceTrace_v1, V1.filter_write_maybeNotify_v1]
    simp [isWrite]
  · intro w hsl
    rw [V1.set_set_branch_v1 p1 m v s hsl]
    simp only [List.filter_append, V1.filter_write_coerceTrace_v1,
      V1.filter_write_maybeNotify_v1]
    simp [isWrite]

/-- C3: on every `set`/`coerce` call on which the equality predicate is
invoked (in variant 1: when `changed` or `notify` is configured; in
variant 2: always), if it reports the values equivalent then no `changed`
callback and no notification fires, and if it reports them different then
the projection of the trace onto those side effects is exactly the
configured `changed` call followed by the configured notification — the
callback strictly precedes the emission.  Old value baseline: the stored
value, or the computed default when unset; new value: the coerced value. -/
theorem claim3_effect_order {U : Type} [DecidableEq U]
    (p1 : V1.Property U) (p2 : V2.Property U) (m : Nat) (v : Option U)
    (s : Store U) :
    (p1.changed || p1.notify →
      ((V1.compareValue p1 (V1.oldOf p1 m s) (V1.coerceValue p1 m v) = true →
          (V1.set p1 m v s).tr.filter (fun e => isEffect e) = [])
      ∧ (V1.compareValue p1 (V1.oldOf p1 m s) (V1.coerceValue p1 m v) = false →
          (V1.set p1 m v s).tr.filter (fun e => isEffect e) =
            (if p1.changed then
              [.changedCall m (V1.oldOf p1 m s) (V1.coerceValue p1 m v)]
             else []) ++
              (if p1.notify then
                [.notifyEmit m p1.name (V1.oldOf p1 m s)
                  (V1.coerceValue p1 m v)]
               else []))))
  ∧ (p1.changed || p1.notify →
      ((V1.compareValue p1 (V1.oldOf p1 m s)
            (V1.coerceValue p1 m (V1.oldOf p1 m s)) = true →
          (V1.coerce p1 m s).tr.filter (fun e => isEffect e) = [])
      ∧ (V1.compareValue p1 (V1.oldOf p1 m s)
            (V1.coerceValue p1 m (V1.oldOf p1 m s)) = false →
          (V1.coerce p1 m s).tr.filter (fun e => isEffect e) =
            (if p1.changed then
              [.changedCall m (V1.oldOf p1 m s)
                (V1.coerceValue p1 m (V1.oldOf p1 m s))]
             else []) ++
              (if p1.notify then
                [.notifyEmit m p1.name (V1.oldOf p1 m s)
                  (V1.coerceValue p1 m (V1.oldOf p1 m s))]
               else []))))
  ∧ ((V2.compareValue p2 (V2.oldOf p2 m s) (V2.coerceValue p2 m v) = true →
        (V2.set p2 m v s).tr.filter (fun e => isEffect e) = [])
    ∧ (V2.compareValue p2 (V2.oldOf p2 m s) (V2.coerceValue p2 m v) = false →
        (V2.set p2 m v s).tr.filter (fun e => isEffect e) =
          (if p2.changed then
            [.changedCall m (V2.oldOf p2 m s) (V2.coerceValue p2 m v)]
           else []) ++
            [.changedSignalEmit m p2.pid (V2.oldOf p2 m s)
              (V2.coerceValue p2 m v)]))
  ∧ ((V2.compareValue p2 (V2.oldOf p2 m s)
          (V2.coerceValue p2 m (V2.oldOf p2 m s)) = true →
        (V2.coerce p2 m s).tr.filter (fun e => isEffect e) = [])
    ∧ (V2.compareValue p2 (V2.oldOf p2 m s)
          (V2.coerceValue p2 m (V2.oldOf p2 m s)) = false →
        (V2.coerce p2 m s).tr.filter (fun e => isEffect e) =
          (if p2.changed then
            [.changedCall m (V2.oldOf p2 m s)
              (V2.coerceValue p2 m (V2.oldOf p2 m s))]
           else []) ++
            [.changedSignalEmit m p2.pid (V2.oldOf p2 m s)
              (V2.coerceValue p2 m (V2.oldOf p2 m s))])) := by
  refine ⟨?_, ?_, ?_, ?_⟩
  · intro hconf
    cases hsl : (lookupHash s m).1 p1.pid with
    | some w =>
      rw [V1.oldOf_set_v1 p1 m s hsl, V1.set_set_branch_v1 p1 m v s hsl]
      constructor
      · intro hcmp
        simp only [List.filter_append, V1.filter_effect_coerceTrace_v1,
          V1.filter_effect_maybeNotify_v1, hcmp]
        simp [isEffect, isChangedEv, isNotifyEv]
      · intro hcmp
        simp only [List.filter_append, V1.filter_effect_coerceTrace_v1,
          V1.filter_effect_maybeNotify_v1, hcmp, hconf]
        simp [isEffect, isChangedEv, isNotifyEv]
    | none =>
      rw [V1.oldOf_unset_v1 p1 m s hsl, V1.set_unset_branch_v1 p1 m v s hsl]
      constructor
      · intro hcmp
        simp only [List.filter_append, V1.filter_effect_createTrace_v1,
          V1.filter_effect_coerceTrace_v1, V1.filter_effect_maybeNotify_v1, hcmp]
        simp [isEffect, isChangedEv, isNotifyEv]
      · intro hcmp
        simp only [List.filter_append, V1.filter_effect_createTrace_v1,
          V1.filter_effect_coerceTrace_v1, V1.filter_effect_maybeNotify_v1, hcmp,
          hconf]
        simp [isEffect, isChangedEv, isNotifyEv]
  · intro hconf
    cases hsl : (lookupHash s m).1 p1.pid with
    | some w =>
      rw [V1.oldOf_set_v1 p1 m s hsl, V1.coerce_set_branch_v1 p1 m s hsl]
      constructor
      · intro hcmp
        simp only [List.filter_append, V1.filter_effect_coerceTrace_v1,
          V1.filter_effect_maybeNotify_v1, hcmp]
        simp [isEffect, isChangedEv, isNotifyEv]
      · intro hcmp
        simp only [List.filter_append, V1.filter_effect_coerceTrace_v1,
          V1.filter_effect_maybeNotify_v1, hcmp, hconf]
        simp [isEffect, isChangedEv, isNotifyEv]
    | none =>
      rw [V1.oldOf_unset_v1 p1 m s hsl, V1.coerce_unset_branch_v1 p1 m s hsl]
      constructor
      · intro hcmp
        simp only [List.filter_append, V1.filter_effect_createTrace_v1,
          V1.filter_effect_coerceTrace_v1, V1.filter_effect_maybeNotify_v1, hcmp]
        simp [isEffect, isChangedEv, isNotifyEv]
      · intro hcmp
        simp only [List.filter_append, V1.filter_effect_createTrace_v1,
          V1.filter_effect_coerceTrace_v1, V1.filter_effect_maybeNotify_v1, hcmp,
          hconf]
        simp [isEffect, isChangedEv, isNotifyEv]
  · cases hsl : (lookupHash s m).1 p2.pid with
    | some w =>
      rw [V2.oldOf_set_v2 p2 m s hsl, V2.set_set_branch_v2 p2 m v s hsl]
      constructor
      · intro hcmp
        simp only [List.filter_append, V2.filter_effect_coerceTrace_v2,
          V2.filter_effect_maybeNotify_v2, hcmp]
        simp [isEffect, isChangedEv, isNotifyEv]
      · intro hcmp
        simp only [List.filter_append, V2.filter_effect_coerceTrace_v2,
          V2.filter_effect_maybeNotify_v2, hcmp]
        simp [isEffect, isChangedEv, isNotifyEv]
    | none =>
      rw [V2.oldOf_unset_v2 p2 m s hsl, V2.set_unset_branch_v2 p2 m v s hsl]
      constructor
      · intro hcmp
        simp only [List.filter_append, V2.filter_effect_createTrace_v2,
          V2.filter_effect_coerceTrace_v2, V2.filter_effect_maybeNotify_v2, hcmp]
        simp [isEffect, isChangedEv, isNotifyEv]
      · intro hcmp
        simp only [List.filter_append, V2.filter_effect_createTrace_v2,
          V2.filter_effect_coerceTrace_v2, V2.filter_effect_maybeNotify_v2, hcmp]
        simp [isEffect, isChangedEv, isNotifyEv]
  · cases hsl : (lookupHash s m).1 p2.pid with
    | some w =>
      rw [V2.oldOf_set_v2 p2 m s hsl, V2.coerce_set_branch_v2 p2 m s hsl]
      constructor
      · intro hcmp
        simp only [List.filter_append, V2.filter_effect_coerceTrace_v2,
          V2.filter_effect_maybeNotify_v2, hcmp]
        simp [isEffect, isChangedEv, isNotifyEv]
      · intro hcmp
        simp only [List.filter_append, V2.filter_effect_coerceTrace_v2,
          V2.filter_effect_maybeNotify_v2, hcmp]
        simp [isEffect, isChangedEv, isNotifyEv]
    | none =>
      rw [V2.oldOf_unset_v2 p2 m s hsl, V2.coerce_unset_branch_v2 p2 m s hsl]
      constructor
      · intro hcmp
        simp only [List.filter_append, V2.filter_effect_createTrace_v2,
          V2.filter_effect_coerceTrace_v2, V2.filter_effect_maybeNotify_v2, hcmp]
        simp [isEffect, isChangedEv, isNotifyEv]
      · intro hcmp
        simp only [List.filter_append, V2.filter_effect_createTrace_v2,
          V2.filter_effect_coerceTrace_v2, V2.filter_effect_maybeNotify_v2, hcmp]
        simp [isEffect, isChangedEv, isNotifyEv]

/-- C10: in the static-signal variant (variant 2), every `set` or `coerce`
call whose comparison reports the values different emits on
`Property.changedSignal` bound to the owner, carrying the descriptor
reference (its pid here), the old value and the new value — for every
descriptor, including one constructed with no options at all; no
configuration makes a value change silent. -/
theorem claim10_static_signal_always {U : Type} [DecidableEq U]
    (p : V2.Property U) (m : Nat) (v : Option U) (s : Store U) :
    (V2.compareValue p (V2.oldOf p m s) (V2.coerceValue p m v) = false →
      Event.changedSignalEmit m p.pid (V2.oldOf p m s) (V2.coerceValue p m v)
        ∈ (V2.set p m v s).tr)
  ∧ (V2.compareValue p (V2.oldOf p m s)
        (V2.coerceValue p m (V2.oldOf p m s)) = false →
      Event.changedSignalEmit m p.pid (V2.oldOf p m s)
          (V2.coerceValue p m (V2.oldOf p m s))
        ∈ (V2.coerce p m s).tr) := by
  constructor
  · intro hcmp
    cases hsl : (lookupHash s m).1 p.pid with
    | some w =>
      rw [V2.oldOf_set_v2 p m s hsl] at hcmp ⊢
      rw [V2.set_set_branch_v2 p m v s hsl]
      simp [V2.maybeNotify, hcmp]
    | none =>
      rw [V2.oldOf_unset_v2 p m s hsl] at hcmp ⊢
      rw [V2.set_unset_branch_v2 p m v s hsl]
      simp [V2.maybeNotify, hcmp]
  · intro hcmp
    cases hsl : (lookupHash s m).1 p.pid with
    | some w =>
      rw [V2.oldOf_set_v2 p m s hsl] at hcmp ⊢
      rw [V2.coerce_set_branch_v2 p m s hsl]
      simp [V2.maybeNotify, hcmp]
    | none =>
      rw [V2.oldOf_unset_v2 p m s hsl] at hcmp ⊢
      rw [V2.coerce_unset_branch_v2 p m s hsl]
      simp [V2.maybeNotify, hcmp]

/-- C8: for distinct owners `m1 ≠ m2` and one descriptor, any sequence of
`set(m1, x)`, `coerce(m1)` and `clearPropertyData(m1)` calls leaves `m2`'s
table entry in the store, and hence the value `get(m2)` returns, unchanged
— in either variant. -/
theorem claim8_isolation {U : Type} [DecidableEq U]
    (p1 : V1.Property U) (p2 : V2.Property U) (m1 m2 : Nat)
    (ops : List (Op U)) (s : Store U) (hne : m1 ≠ m2) :
    (runOps1 p1 m1 ops s m2 = s m2)
  ∧ ((V1.get p1 m2 (runOps1 p1 m1 ops s)).val = (V1.get p1 m2 s).val)
  ∧ (runOps2 p2 m1 ops s m2 = s m2)
  ∧ ((V2.get p2 m2 (runOps2 p2 m1 ops s)).val = (V2.get p2 m2 s).val) := by
  have hne2 : m2 ≠ m1 := Ne.symm hne
  have h1 : ∀ (ops : List (Op U)) (s : Store U), runOps1 p1 m1 ops s m2 = s m2 := by
    intro ops
    induction ops with
    | nil => intro s; rfl
    | cons op rest ih =>
      intro s
      cases op with
      | setOp v =>
        show runOps1 p1 m1 rest ((V1.set p1 m1 v s).st) m2 = s m2
        rw [ih ((V1.set p1 m1 v s).st)]
        exact V1.set_st_ne_v1 p1 m1 v s hne2
      | coerceOp =>
        show runOps1 p1 m1 rest ((V1.coerce p1 m1 s).st) m2 = s m2
        rw [ih ((V1.coerce p1 m1 s).st)]
        exact V1.coerce_st_ne_v1 p1 m1 s hne2
      | clearOp =>
        show runOps1 p1 m1 rest ((clearPropertyData m1 s).1) m2 = s m2
        rw [ih ((clearPropertyData m1 s).1)]
        exact clear_st_ne m1 s hne2
  have h2 : ∀ (ops : List (Op U)) (s : Store U), runOps2 p2 m1 ops s m2 = s m2 := by
    intro ops
    induction ops with
    | nil => intro s; rfl
    | cons op rest ih =>
      intro s
      cases op with
      | setOp v =>
        show runOps2 p2 m1 rest ((V2.set p2 m1 v s).st) m2 = s m2
        rw [ih ((V2.set p2 m1 v s).st)]
        exact V2.set_st_ne_v2 p2 m1 v s hne2
      | coerceOp =>
        show runOps2 p2 m1 rest ((V2.coerce p2 m1 s).st) m2 = s m2
        rw [ih ((V2.coerce p2 m1 s).st)]
        exact V2.coerce_st_ne_v2 p2 m1 s hne2
      | clearOp =>
        show runOps2 p2 m1 rest ((clearPropertyData m1 s).1) m2 = s m2
        rw [ih ((clearPropertyData m1 s).1)]
        exact clear_st_ne m1 s hne2
  exact ⟨h1 ops s, V1.get_val_congr_v1 p1 m2 (h1 ops s),
    h2 ops s, V2.get_val_congr_v2 p2 m2 (h2 ops s)⟩

/-- C9: on every `set`/`coerce` call, in both variants: the trace splits
into a prefix containing all table writes (among them the write of the
coerced new value) and no comparison/`changed`/notification event, and a
suffix containing those callback events and no write — so the coerced new
value is committed strictly before the equality predicate, the `changed`
callback or any notification listener runs; a reentrant `get` from inside
those callbacks (which observe the final store, since the notify phase
performs no writes) returns the new value; and the resulting store does not
depend on the `compare`/`changed`/notify configuration at all, so a
callback throwing can not roll the committed value back. -/
theorem claim9_commit_before_callbacks {U : Type} [DecidableEq U]
    (p1 : V1.Property U) (p2 : V2.Property U) (m : Nat) (v : Option U)
    (s : Store U) :
    ((∃ t1 t2, (V1.set p1 m v s).tr = t1 ++ t2
      ∧ (∀ e ∈ t1, isNotifyPhase e = false)
      ∧ (∀ e ∈ t2, isWrite e = false)
      ∧ Event.write m p1.pid (V1.coerceValue p1 m v) ∈ t1)
    ∧ (V1.get p1 m ((V1.set p1 m v s).st)).val = V1.coerceValue p1 m v
    ∧ (∀ nm cmp chg ntf,
        (V1.set ⟨nm, p1.value, p1.create, p1.coerce, cmp, chg, ntf, p1.pid⟩
          m v s).st = (V1.set p1 m v s).st))
  ∧ ((∃ t1 t2, (V1.coerce p1 m s).tr = t1 ++ t2
      ∧ (∀ e ∈ t1, isNotifyPhase e = false)
      ∧ (∀ e ∈ t2, isWrite e = false)
      ∧ Event.write m p1.pid (V1.coerceValue p1 m (V1.oldOf p1 m s)) ∈ t1)
    ∧ (V1.get p1 m ((V1.coerce p1 m s).st)).val =
        V1.coerceValue p1 m (V1.oldOf p1 m s)
    ∧ (∀ nm cmp chg ntf,
        (V1.coerce ⟨nm, p1.value, p1.create, p1.coerce, cmp, chg, ntf, p1.pid⟩
          m s).st = (V1.coerce p1 m s).st))
  ∧ ((∃ t1 t2, (V2.set p2 m v s).tr = t1 ++ t2
      ∧ (∀ e ∈ t1, isNotifyPhase e = false)
      ∧ (∀ e ∈ t2, isWrite e = false)
      ∧ Event.write m p2.pid (V2.coerceValue p2 m v) ∈ t1)
    ∧ (V2.get p2 m ((V2.set p2 m v s).st)).val = V2.coerceValue p2 m v
    ∧ (∀ cmp chg,
        (V2.set ⟨p2.value, p2.create, p2.coerce, cmp, chg, p2.pid⟩
          m v s).st = (V2.set p2 m v s).st))
  ∧ ((∃ t1 t2, (V2.coerce p2 m s).tr = t1 ++ t2
      ∧ (∀ e ∈ t1, isNotifyPhase e = false)
      ∧ (∀ e ∈ t2, isWrite e = false)
      ∧ Event.write m p2.pid (V2.coerceValue p2 m (V2.oldOf p2 m s)) ∈ t1)
    ∧ (V2.get p2 m ((V2.coerce p2 m s).st)).val =
        V2.coerceValue p2 m (V2.oldOf p2 m s)
    ∧ (∀ cmp chg,
        (V2.coerce ⟨p2.value, p2.create, p2.coerce, cmp, chg, p2.pid⟩
          m s).st = (V2.coerce p2 m s).st)) := by
  refine ⟨⟨?_, ?_, ?_⟩, ⟨?_, ?_, ?_⟩, ⟨?_, ?_, ?_⟩, ⟨?_, ?_, ?_⟩⟩
  · cases hsl : (lookupHash s m).1 p1.pid with
    | some w =>
      rw [V1.set_set_branch_v1 p1 m v s hsl]
      refine ⟨V1.coerceTrace p1 m v ++ [.write m p1.pid (V1.coerceValue p1 m v)],
        V1.maybeNotify p1 m w (V1.coerceValue p1 m v), rfl, ?_, ?_, ?_⟩
      · intro e he
        rcases List.mem_append.1 he with he | he
        · exact V1.notifyPhase_false_coerceTrace_v1 p1 m v e he
        · simp at he
          subst he
          rfl
      · exact V1.write_false_maybeNotify_v1 p1 m w _
      · exact List.mem_append.2 (Or.inr (by simp))
    | none =>
      rw [V1.set_unset_branch_v1 p1 m v s hsl]
      refine ⟨V1.createTrace p1 m ++ [.write m p1.pid (V1.createValue p1 m)] ++
          V1.coerceTrace p1 m v ++ [.write m p1.pid (V1.coerceValue p1 m v)],
        V1.maybeNotify p1 m (V1.createValue p1 m) (V1.coerceValue p1 m v),
        rfl, ?_, ?_, ?_⟩
      · intro e he
        simp only [List.mem_append] at he
        rcases he with ((he | he) | he) | he
        · exact V1.notifyPhase_false_createTrace_v1 p1 m e he
        · simp at he
          subst he
          rfl
        · exact V1.notifyPhase_false_coerceTrace_v1 p1 m v e he
        · simp at he
          subst he
          rfl
      · exact V1.write_false_maybeNotify_v1 p1 m _ _
      · simp
  · have h1 : (lookupHash (V1.set p1 m v s).st m).1 p1.pid =
        some (V1.coerceValue p1 m v) := by
      cases hsl : (lookupHash s m).1 p1.pid with
      | some w =>
        rw [V1.set_set_branch_v1 p1 m v s hsl]
        simp [lookupHash_updTable_fst]
      | none =>
        rw [V1.set_unset_branch_v1 p1 m v s hsl]
        simp [lookupHash_updTable_fst]
    rw [V1.get_set_branch_v1 p1 m _ h1]
  · intro nm cmp chg ntf
    cases hsl : (lookupHash s m).1 p1.pid with
    | some w =>
      rw [V1.set_set_branch_v1 p1 m v s hsl,
        V1.set_set_branch_v1
          ⟨nm, p1.value, p1.create, p1.coerce, cmp, chg, ntf, p1.pid⟩
          m v s hsl]
      rfl
    | none =>
      rw [V1.set_unset_branch_v1 p1 m v s hsl,
        V1.set_unset_branch_v1
          ⟨nm, p1.value, p1.create, p1.coerce, cmp, chg, ntf, p1.pid⟩
          m v s hsl]
      rfl
  · cases hsl : (lookupHash s m).1 p1.pid with
    | some w =>
      rw [V1.oldOf_set_v1 p1 m s hsl, V1.coerce_set_branch_v1 p1 m s hsl]
      refine ⟨V1.coerceTrace p1 m w ++ [.write m p1.pid (V1.coerceValue p1 m w)],
        V1.maybeNotify p1 m w (V1.coerceValue p1 m w), rfl, ?_, ?_, ?_⟩
      · intro e he
        rcases List.mem_append.1 he with he | he
        · exact V1.notifyPhase_false_coerceTrace_v1 p1 m w e he
        · simp at he
          subst he
          rfl
      · exact V1.write_false_maybeNotify_v1 p1 m w _
      · exact List.mem_append.2 (Or.inr (by simp))
    | none =>
      rw [V1.oldOf_unset_v1 p1 m s hsl, V1.coerce_unset_branch_v1 p1 m s hsl]
      refine ⟨V1.createTrace p1 m ++ [.write m p1.pid (V1.createValue p1 m)] ++
          V1.coerceTrace p1 m (V1.createValue p1 m) ++
          [.write m p1.pid (V1.coerceValue p1 m (V1.createValue p1 m))],
        V1.maybeNotify p1 m (V1.createValue p1 m)
          (V1.coerceValue p1 m (V1.createValue p1 m)),
        rfl, ?_, ?_, ?_⟩
      · intro e he
        simp only [List.mem_append] at he
        rcases he with ((he | he) | he) | he
        · exact V1.notifyPhase_false_createTrace_v1 p1 m e he
        · simp at he
          subst he
          rfl
        · exact V1.notifyPhase_false_coerceTrace_v1 p1 m _ e he
        · simp at he
          subst he
          rfl
      · exact V1.write_false_maybeNotify_v1 p1 m _ _
      · simp
  · have h1 : (lookupHash (V1.coerce p1 m s).st m).1 p1.pid =
        some (V1.coerceValue p1 m (V1.oldOf p1 m s)) := by
      cases hsl : (lookupHash s m).1 p1.pid with
      | some w =>
        rw [V1.oldOf_set_v1 p1 m s hsl, V1.coerce_set_branch_v1 p1 m s hsl]
        simp [lookupHash_updTable_fst]
      | none =>
        rw [V1.oldOf_unset_v1 p1 m s hsl, V1.coerce_unset_branch_v1 p1 m s hsl]
        simp [lookupHash_updTable_fst]
    rw [V1.get_set_branch_v1 p1 m _ h1]
  · intro nm cmp chg ntf
    cases hsl : (lookupHash s m).1 p1.pid with
    | some w =>
      rw [V1.coerce_set_branch_v1 p1 m s hsl,
        V1.coerce_set_branch_v1
          ⟨nm, p1.value, p1.create, p1.coerce, cmp, chg, ntf, p1.pid⟩
          m s hsl]
      rfl
    | none =>
      rw [V1.coerce_unset_branch_v1 p1 m s hsl,
        V1.coerce_unset_branch_v1
          ⟨nm, p1.value, p1.create, p1.coerce, cmp, chg, ntf, p1.pid⟩
          m s hsl]
      rfl
  · cases hsl : (lookupHash s m).1 p2.pid with
    | some w =>
      rw [V2.set_set_branch_v2 p2 m v s hsl]
      refine ⟨V2.coerceTrace p2 m v ++ [.write m p2.pid (V2.coerceValue p2 m v)],
        V2.maybeNotify p2 m w (V2.coerceValue p2 m v), rfl, ?_, ?_, ?_⟩
      · intro e he
        rcases List.mem_append.1 he with he | he
        · exact V2.notifyPhase_false_coerceTrace_v2 p2 m v e he
        · simp at he
          subst he
          rfl
      · exact V2.write_false_maybeNotify_v2 p2 m w _
      · exact List.mem_append.2 (Or.inr (by simp))
    | none =>
      rw [V2.set_unset_branch_v2 p2 m v s hsl]
      refine ⟨V2.createTrace p2 m ++ V2.coerceTrace p2 m v ++
          [.write m p2.pid (V2.coerceValue p2 m v)],
        V2.maybeNotify p2 m (V2.createValue p2 m) (V2.coerceValue p2 m v),
        rfl, ?_, ?_, ?_⟩
      · intro e he
        simp only [List.mem_append] at he
        rcases he with (he | he) | he
        · exact V2.notifyPhase_false_createTrace_v2 p2 m e he
        · exact V2.notifyPhase_false_coerceTrace_v2 p2 m v e he
        · simp at he
          subst he
          rfl
      · exact V2.write_false_maybeNotify_v2 p2 m _ _
      · simp
  · have h1 : (lookupHash (V2.set p2 m v s).st m).1 p2.pid =
        some (V2.coerceValue p2 m v) := by
      cases hsl : (lookupHash s m).1 p2.pid with
      | some w =>
        rw [V2.set_set_branch_v2 p2 m v s hsl]
        simp [lookupHash_updTable_fst]
      | none =>
        rw [V2.set_unset_branch_v2 p2 m v s hsl]
        simp [lookupHash_updTable_fst]
    rw [V2.get_set_branch_v2 p2 m _ h1]
  · intro cmp chg
    cases hsl : (lookupHash s m).1 p2.pid with
    | some w =>
      rw [V2.set_set_branch_v2 p2 m v s hsl,
        V2.set_set_branch_v2 ⟨p2.value, p2.create, p2.coerce, cmp, chg, p2.pid⟩
          m v s hsl]
      rfl
    | none =>
      rw [V2.set_unset_branch_v2 p2 m v s hsl,
        V2.set_unset_branch_v2 ⟨p2.value, p2.create, p2.coerce, cmp, chg, p2.pid⟩
          m v s hsl]
      rfl
  · cases hsl : (lookupHash s m).1 p2.pid with
    | some w =>
      rw [V2.oldOf_set_v2 p2 m s hsl, V2.coerce_set_branch_v2 p2 m s hsl]
      refine ⟨V2.coerceTrace p2 m w ++ [.write m p2.pid (V2.coerceValue p2 m w)],
        V2.maybeNotify p2 m w (V2.coerceValue p2 m w), rfl, ?_, ?_, ?_⟩
      · intro e he
        rcases List.mem_append.1 he with he | he
        · exact V2.notifyPhase_false_coerceTrace_v2 p2 m w e he
        · simp at he
          subst he
          rfl
      · exact V2.write_false_maybeNotify_v2 p2 m w _
      · exact List.mem_append.2 (Or.inr (by simp))
    | none =>
      rw [V2.oldOf_unset_v2 p2 m s hsl, V2.coerce_unset_branch_v2 p2 m s hsl]
      refine ⟨V2.createTrace p2 m ++ V2.coerceTrace p2 m (V2.createValue p2 m) ++
          [.write m p2.pid (V2.coerceValue p2 m (V2.createValue p2 m))],
        V2.maybeNotify p2 m (V2.createValue p2 m)
          (V2.coerceValue p2 m (V2.createValue p2 m)),
        rfl, ?_, ?_, ?_⟩
      · intro e he
        simp only [List.mem_append] at he
        rcases he with (he | he) | he
        · exact V2.notifyPhase_false_createTrace_v2 p2 m e he
        · exact V2.notifyPhase_false_coerceTrace_v2 p2 m _ e he
        · simp at he
          subst he
          rfl
      · exact V2.write_false_maybeNotify_v2 p2 m _ _
      · simp
  · have h1 : (lookupHash (V2.coerce p2 m s).st m).1 p2.pid =
        some (V2.coerceValue p2 m (V2.oldOf p2 m s)) := by
      cases hsl : (lookupHash s m).1 p2.pid with
      | some w =>
        rw [V2.oldOf_set_v2 p2 m s hsl, V2.coerce_set_branch_v2 p2 m s hsl]
        simp [lookupHash_updTable_fst]
      | none =>
        rw [V2.oldOf_unset_v2 p2 m s hsl, V2.coerce_unset_branch_v2 p2 m s hsl]
        simp [lookupHash_updTable_fst]
    rw [V2.get_set_branch_v2 p2 m _ h1]
  · intro cmp chg
    cases hsl : (lookupHash s m).1 p2.pid with
    | some w =>
      rw [V2.coerce_set_branch_v2 p2 m s hsl,
        V2.coerce_set_branch_v2 ⟨p2.value, p2.create, p2.coerce, cmp, chg, p2.pid⟩
          m s hsl]
      rfl
    | none =>
      rw [V2.coerce_unset_branch_v2 p2 m s hsl,
        V2.coerce_unset_branch_v2 ⟨p2.value, p2.create, p2.coerce, cmp, chg, p2.pid⟩
          m s hsl]
      rfl

/-! ### Witnesses: the claim theorems applied at concrete inputs -/

/-- Witness for C1 (amended): at a variant 1 descriptor with default `0`
and no other options, `set(0, 1)` on the empty store writes the default `0`
and then the coerced value `1`. -/
theorem claim1_amended_writes_witness :
    (V1.set (U := Nat) ⟨"x", some 0, none, none, none, false, false, 0⟩ 0
        (some 1) emptyStore).tr.filter (fun e => isWrite e) =
      [Event.write 0 0 (some 0), Event.write 0 0 (some 1)] := by
  have h := (claim1_amended_writes (U := Nat)
    ⟨"x", some 0, none, none, none, false, false, 0⟩ (V2.mkDefault Nat 0) 0
    (some 1) emptyStore).2.1 (by decide)
  rw [h]
  decide

/-- Witness for C2: with `changed` and `notify` configured, `set` invokes
the comparison exactly once. -/
theorem claim2_notify_gating_witness :
    (V1.set (U := Nat) ⟨"a", some 0, none, none, none, true, true, 0⟩ 0
        (some 1) emptyStore).tr.countP (fun e => isCompare e) = 1 := by
  have h := (claim2_notify_gating (U := Nat)
    ⟨"a", some 0, none, none, none, true, true, 0⟩ (V2.mkDefault Nat 0) 0
    (some 1) emptyStore).1
  simpa using h

/-- Witness for C3: with `changed` and `notify` configured and a change
from `undefined` to `1`, the side-effect projection of `set`'s trace is the
`changed` call followed by the notification. -/
theorem claim3_effect_order_witness :
    (V1.set (U := Nat) ⟨"n", none, none, none, none, true, true, 0⟩ 0
        (some 1) emptyStore).tr.filter (fun e => isEffect e) =
      [Event.changedCall 0 none (some 1),
        Event.notifyEmit 0 "n" none (some 1)] := by
  have h := ((claim3_effect_order (U := Nat)
    ⟨"n", none, none, none, none, true, true, 0⟩ (V2.mkDefault Nat 0) 0
    (some 1) emptyStore).1 (by decide)).2 (by decide)
  rw [h]
  decide

/-- Witness for C4: `get` returns the stored value `5` on a set slot and
the literal default `7` on an unset slot. -/
theorem claim4_get_pure_witness :
    ((V1.get (U := Nat) ⟨"a", some 7, none, none, none, true, true, 0⟩ 0
        sampleStore).val = some 5)
  ∧ ((V1.get (U := Nat) ⟨"a", some 7, none, none, none, true, true, 0⟩ 0
        emptyStore).val = some 7) := by
  constructor
  · exact ((claim4_get_pure (U := Nat)
      ⟨"a", some 7, none, none, none, true, true, 0⟩ (V2.mkDefault Nat 0) 0
      sampleStore).2.2.1 (some 5) (by decide)).1
  · have h := ((claim4_get_pure (U := Nat)
      ⟨"a", some 7, none, none, none, true, true, 0⟩ (V2.mkDefault Nat 0) 0
      emptyStore).2.2.2.2.1 (by decide)).1
    rw [h]
    decide

/-- Witness for C5: after `set(0, 3)` a `get` returns `3`. -/
theorem claim5_set_commits_witness :
    (V1.get (U := Nat) ⟨"a", some 0, none, none, none, false, false, 0⟩ 0
        ((V1.set ⟨"a", some 0, none, none, none, false, false, 0⟩ 0 (some 3)
          emptyStore).st)).val = some 3 := by
  have h := (claim5_set_commits (U := Nat)
    ⟨"a", some 0, none, none, none, false, false, 0⟩ (V2.mkDefault Nat 0) 0
    (some 3) emptyStore).2.1
  simpa [V1.coerceValue] using h

/-- Witness for C6: `coerce` at a concrete descriptor and store is the
`set` of the current old value. -/
theorem claim6_coerce_is_set_of_old_witness :
    V1.coerce (U := Nat) ⟨"a", some 0, none, none, none, false, false, 0⟩ 0
        sampleStore =
      V1.set ⟨"a", some 0, none, none, none, false, false, 0⟩ 0
        (V1.oldOf ⟨"a", some 0, none, none, none, false, false, 0⟩ 0
          sampleStore) sampleStore :=
  (claim6_coerce_is_set_of_old (U := Nat)
    ⟨"a", some 0, none, none, none, false, false, 0⟩ (V2.mkDefault Nat 0) 0
    sampleStore).1

/-- Witness for C7: clearing removes owner `0`'s table, clearing an absent
table is a no-op, and a subsequent `get` recomputes the default `7`. -/
theorem claim7_clear_all_silent_witness :
    ((clearPropertyData (U := Nat) 0 sampleStore).1 0 = none)
  ∧ ((clearPropertyData (U := Nat) 0 emptyStore).1 = emptyStore)
  ∧ ((V1.get (U := Nat) ⟨"a", some 7, none, none, none, false, false, 0⟩ 0
        (clearPropertyData 0 sampleStore).1).val = some 7) := by
  refine ⟨(claim7_clear_all_silent 0 sampleStore).2.1,
    (claim7_clear_all_silent 0 emptyStore).2.2.1 rfl, ?_⟩
  have h := (claim7_clear_all_silent (U := Nat) 0 sampleStore).2.2.2.1
    ⟨"a", some 7, none, none, none, false, false, 0⟩
  rw [h]
  decide

/-- Witness for C8: a `set`/`coerce`/`clear` sequence against owner `0`
leaves owner `1`'s entry in the store unchanged. -/
theorem claim8_isolation_witness :
    runOps1 (U := Nat) ⟨"a", some 0, none, none, none, false, false, 0⟩ 0
      [Op.setOp (some 5), Op.coerceOp, Op.clearOp] emptyStore 1 =
      emptyStore 1 :=
  (claim8_isolation (U := Nat)
    ⟨"a", some 0, none, none, none, false, false, 0⟩ (V2.mkDefault Nat 0) 0 1
    [Op.setOp (some 5), Op.coerceOp, Op.clearOp] emptyStore (by decide)).1

/-- Witness for C9: after `set(0, 2)` a reentrant `get` on the resulting
store returns the committed value `2`. -/
theorem claim9_commit_before_callbacks_witness :
    (V1.get (U := Nat) ⟨"a", some 0, none, none, none, true, true, 0⟩ 0
        ((V1.set ⟨"a", some 0, none, none, none, true, true, 0⟩ 0 (some 2)
          emptyStore).st)).val = some 2 := by
  have h := (claim9_commit_before_callbacks (U := Nat)
    ⟨"a", some 0, none, none, none, true, true, 0⟩ (V2.mkDefault Nat 0) 0
    (some 2) emptyStore).1.2.1
  simpa [V1.coerceValue] using h

/-- Witness for C10: a variant 2 descriptor constructed with no options at
all still emits on the static signal when `set` changes the value. -/
theorem claim10_static_signal_always_witness :
    Event.changedSignalEmit 0 0 none (some 1) ∈
      (V2.set (U := Nat) (V2.mkDefault Nat 0) 0 (some 1) emptyStore).tr := by
  have h := (claim10_static_signal_always (U := Nat) (V2.mkDefault Nat 0) 0
    (some 1) emptyStore).1 (by decide)
  have e1 : V2.oldOf (U := Nat) (V2.mkDefault Nat 0) 0 emptyStore = none := by
    decide
  have e2 : V2.coerceValue (U := Nat) (V2.mkDefault Nat 0) 0 (some 1) =
      some 1 := by decide
  rw [e1, e2] at h
  exact h

end Phosphor
